import Mathlib

/-!
Verification of the HD44780 LCD driver in devLib/lcd.c (wiringPi).

The development shallowly embeds the driver: each C function becomes a pure
Lean function over an explicit handle state, and every externally visible
action (GPIO write, pin-mode change, I2C register write, delay) is recorded
in an event trace.  The trace additionally records, as bookkeeping markers,
each logical command/data byte crossing the command layer (Ev.bus) and each
single-nibble command issued by put4Command (Ev.nib); these markers carry no
electrical content and merely tag positions in the raw event stream.

C unsigned char arithmetic is modelled as Nat with explicit truncation
(mod 256) at every implicit conversion point of the source; C int fields
that can be negative (rows, cols, cx, cy, bits, backlight_state, i2c_fd)
are modelled as Int.  Out-of-bounds reads of the 4-entry rowOff table are
undefined behaviour in C; the embedding makes the indexing total with
Option, returning none on the out-of-bounds branch.
-/

/-- Trace events: raw transport actions plus command-layer markers.
dw pin v = digitalWrite, pm pin = pinMode(OUTPUT), i2c fd b = wiringPiI2CWrite,
dus n = delayMicroseconds, dms n = delay (milliseconds), bus rs b = a
command (rs=0) or data (rs=1) byte entering sendDataCmd, nib v = a
single-nibble command entering put4Command. -/
inductive Ev where
  | dw : Nat → Nat → Ev
  | pm : Nat → Ev
  | i2c : Int → Nat → Ev
  | dus : Nat → Ev
  | dms : Nat → Ev
  | bus : Nat → Nat → Ev
  | nib : Nat → Ev
  deriving DecidableEq, Repr

/-- Per-display state, mirroring struct lcdDataStruct (lcd.c lines 73-82).
The dataPins array is expanded into the eight fields d0..d7. -/
structure Lcd where
  bits : Int
  rows : Int
  cols : Int
  rsPin : Nat
  strbPin : Nat
  d0 : Nat
  d1 : Nat
  d2 : Nat
  d3 : Nat
  d4 : Nat
  d5 : Nat
  d6 : Nat
  d7 : Nat
  cx : Int
  cy : Int
  i2c_fd : Int
  backlight_bit : Nat
  backlight_state : Int
  deriving DecidableEq, Repr

/-- Row offsets table (lcd.c line 90): static const int rowOff [4]. -/
def rowOff : List Nat := [0x00, 0x40, 0x14, 0x54]

/-- Total model of the C expression rowOff[i] for int i: none on the
out-of-bounds branch (undefined behaviour in the C source). -/
def rowOffI (i : Int) : Option Nat :=
  if i < 0 then none else rowOff[i.toNat]?

/-- Macro LCD_BACKLIGHT (lcd.c line 71): backlight_state ? 1 << backlight_bit : 0. -/
def LCD_BACKLIGHT (lcd : Lcd) : Nat :=
  if lcd.backlight_state ≠ 0 then 1 <<< lcd.backlight_bit else 0

/-- Function strobe (lcd.c lines 100-107): E high, 50 us, E low, 50 us. -/
def strobe (lcd : Lcd) : List Ev :=
  [Ev.dw lcd.strbPin 1, Ev.dus 50, Ev.dw lcd.strbPin 0, Ev.dus 50]

/-- Function i2c_send (lcd.c lines 110-116): write the packed byte with the
strobe bit high, 50 us, then the same byte with the strobe bit low, 50 us;
the backlight bit is reconstructed into both bytes. -/
def i2c_send (lcd : Lcd) (output : Nat) : List Ev :=
  [Ev.i2c lcd.i2c_fd (output ||| (1 <<< lcd.strbPin) ||| LCD_BACKLIGHT lcd),
   Ev.dus 50,
   Ev.i2c lcd.i2c_fd (output ||| LCD_BACKLIGHT lcd),
   Ev.dus 50]

/-- The first four data-pin numbers, i.e. dataPins[0..3]. -/
def pins4 (lcd : Lcd) : List Nat := [lcd.d0, lcd.d1, lcd.d2, lcd.d3]

/-- All eight data-pin numbers, i.e. dataPins[0..7]. -/
def pins8 (lcd : Lcd) : List Nat :=
  [lcd.d0, lcd.d1, lcd.d2, lcd.d3, lcd.d4, lcd.d5, lcd.d6, lcd.d7]

/-- The digitalWrite loop of sendDataCmd and put4Command: write the payload
LSB-first onto the successive pins, shifting the payload right each step. -/
def writeBitsLSB : Nat → List Nat → List Ev
  | _, [] => []
  | my, p :: ps => Ev.dw p (my &&& 1) :: writeBitsLSB (my >>> 1) ps

/-- The packing loop of marshal4Bits (lcd.c lines 118-130); the accumulator
is an unsigned char, hence the mod 256 on every step. -/
def marshalLoop : Nat → Nat → List Nat → Nat
  | _, acc, [] => acc
  | my, acc, p :: ps => marshalLoop (my >>> 1) ((acc ||| ((my &&& 1) <<< p)) % 256) ps

/-- Function marshal4Bits (lcd.c lines 118-130): place the four payload bits
at the configured data-pin bit positions of the expander byte. -/
def marshal4Bits (lcd : Lcd) (data : Nat) : Nat :=
  marshalLoop data 0 (pins4 lcd)

/-- Function sendDataCmd (lcd.c lines 139-179): send a data or command byte.
I2C transport sends two nibble-packed expander transactions; parallel
transport sets RS then bit-bangs one byte (4-bit: two nibbles, high first).
The head event is the command-layer marker. -/
def sendDataCmd (lcd : Lcd) (data rs : Nat) : List Ev :=
  Ev.bus rs data ::
  (if lcd.i2c_fd ≠ 0 then
    i2c_send lcd ((marshal4Bits lcd ((data >>> 4) &&& 0xF) ||| (rs <<< lcd.rsPin)) % 256) ++
    i2c_send lcd ((marshal4Bits lcd (data &&& 0xF) ||| (rs <<< lcd.rsPin)) % 256)
  else
    Ev.dw lcd.rsPin rs ::
    ((if lcd.bits = 4 then
        writeBitsLSB ((data >>> 4) &&& 0x0F) (pins4 lcd) ++ strobe lcd ++
        writeBitsLSB (data &&& 0x0F) (pins4 lcd)
      else
        writeBitsLSB data (pins8 lcd)) ++ strobe lcd))

/-- Function putCommand (lcd.c lines 188-192): sendDataCmd with RS=0, then 2 ms. -/
def putCommand (lcd : Lcd) (command : Nat) : List Ev :=
  sendDataCmd lcd command 0 ++ [Ev.dms 2]

/-- Function put4Command (lcd.c lines 194-211): send a single nibble with
RS=0 (one expander transaction on I2C, one strobe on parallel). -/
def put4Command (lcd : Lcd) (command : Nat) : List Ev :=
  Ev.nib command ::
  (if lcd.i2c_fd ≠ 0 then
    i2c_send lcd (marshal4Bits lcd command)
  else
    Ev.dw lcd.rsPin 0 :: (writeBitsLSB command (pins4 lcd) ++ strobe lcd))

/-- Function lcdHome (lcd.c lines 226-233). -/
def lcdHome (lcd : Lcd) : Lcd × List Ev :=
  ({ lcd with cx := 0, cy := 0 }, putCommand lcd 0x02 ++ [Ev.dms 5])

/-- Function lcdClear (lcd.c lines 235-243). -/
def lcdClear (lcd : Lcd) : Lcd × List Ev :=
  ({ lcd with cx := 0, cy := 0 },
   putCommand lcd 0x01 ++ putCommand lcd 0x02 ++ [Ev.dms 5])

/-- Update of the process-wide shadow byte by C code ctrl &= ~mask; equals
bitwise and-not for the nonnegative values involved. -/
def clearMask (ctrl mask : Nat) : Nat := ctrl ^^^ (ctrl &&& mask)

/-- Function lcdDisplay (lcd.c lines 252-262); ctrl is the process-wide
lcdControl shadow, threaded explicitly. -/
def lcdDisplay (ctrl : Nat) (lcd : Lcd) (state : Int) : Nat × List Ev :=
  let c := if state ≠ 0 then ctrl ||| 0x04 else clearMask ctrl 0x04
  (c, putCommand lcd ((0x08 ||| c) % 256))

/-- Function lcdCursor (lcd.c lines 264-274). -/
def lcdCursor (ctrl : Nat) (lcd : Lcd) (state : Int) : Nat × List Ev :=
  let c := if state ≠ 0 then ctrl ||| 0x02 else clearMask ctrl 0x02
  (c, putCommand lcd ((0x08 ||| c) % 256))

/-- Function lcdCursorBlink (lcd.c lines 276-286). -/
def lcdCursorBlink (ctrl : Nat) (lcd : Lcd) (state : Int) : Nat × List Ev :=
  let c := if state ≠ 0 then ctrl ||| 0x01 else clearMask ctrl 0x01
  (c, putCommand lcd ((0x08 ||| c) % 256))

/-- Function lcdSendCommand (lcd.c lines 295-299): raw command, no bookkeeping. -/
def lcdSendCommand (lcd : Lcd) (command : Nat) : List Ev :=
  putCommand lcd command

/-- Function lcdPosition (lcd.c lines 309-322).  The two range checks reject
x > cols, x < 0, y > rows, y < 0 and silently return; on the accepted path
the command x + (LCD_DGRAM | rowOff[y]) is issued (unsigned char, hence
mod 256) and cx, cy are updated.  rowOff[y] with y outside 0..3 is the
out-of-bounds branch, modelled as none. -/
def lcdPosition (lcd : Lcd) (x y : Int) : Option (Lcd × List Ev) :=
  if x > lcd.cols ∨ x < 0 then some (lcd, [])
  else if y > lcd.rows ∨ y < 0 then some (lcd, [])
  else
    match rowOffI y with
    | none => none
    | some r =>
      some ({ lcd with cx := x, cy := y },
            putCommand lcd ((x.toNat + (0x80 ||| r)) % 256))

/-- Function lcdCharDef (lcd.c lines 331-340): set the CGRAM address for the
glyph, then send the eight pattern rows as data.  The C expression
(index & 7) is index mod 8 for two's-complement ints.  No handle field nor
the control shadow is written; ctrl and lcd are returned unchanged. -/
def lcdCharDef (ctrl : Nat) (lcd : Lcd) (index : Int) (data : Fin 8 → Nat) :
    Nat × Lcd × List Ev :=
  (ctrl, lcd,
   putCommand lcd ((0x40 ||| (((index % 8).toNat) <<< 3)) % 256) ++
   sendDataCmd lcd (data 0) 1 ++ sendDataCmd lcd (data 1) 1 ++
   sendDataCmd lcd (data 2) 1 ++ sendDataCmd lcd (data 3) 1 ++
   sendDataCmd lcd (data 4) 1 ++ sendDataCmd lcd (data 5) 1 ++
   sendDataCmd lcd (data 6) 1 ++ sendDataCmd lcd (data 7) 1)

/-- Function lcdPutchar (lcd.c lines 350-364): send the byte as data,
pre-increment cx; if cx reaches cols, reset cx, increment cy (wrapping to 0
at rows) and issue the resynchronising SET_DDRAM command
lcd->cx + (LCD_DGRAM | rowOff[lcd->cy]) with the already-updated cursor. -/
def lcdPutchar (lcd : Lcd) (data : Nat) : Option (Lcd × List Ev) :=
  let t0 := sendDataCmd lcd data 1
  let lcd1 := { lcd with cx := lcd.cx + 1 }
  if lcd1.cx = lcd1.cols then
    let lcd2 := { lcd1 with cx := 0, cy := lcd1.cy + 1 }
    let lcd3 := if lcd2.cy = lcd2.rows then { lcd2 with cy := 0 } else lcd2
    match rowOffI lcd3.cy with
    | none => none
    | some r =>
      some (lcd3, t0 ++ putCommand lcd3 ((lcd3.cx.toNat + (0x80 ||| r)) % 256))
  else
    some (lcd1, t0)

/-- Function lcdPuts (lcd.c lines 373-377): lcdPutchar on each byte of the
string (the bytes of the C string up to its NUL terminator). -/
def lcdPuts (lcd : Lcd) (s : List Nat) : Option (Lcd × List Ev) :=
  match s with
  | [] => some (lcd, [])
  | b :: rest => do
    let (l1, t1) ← lcdPutchar lcd b
    let (l2, t2) ← lcdPuts l1 rest
    some (l2, t1 ++ t2)

/-- Function lcdBacklight (lcd.c lines 567-576): store the new state; on I2C
transport immediately rewrite the expander byte (backlight bit only). -/
def lcdBacklight (lcd : Lcd) (state : Int) : Lcd × List Ev :=
  let lcd1 := { lcd with backlight_state := state }
  (lcd1, if lcd1.i2c_fd ≠ 0 then [Ev.i2c lcd1.i2c_fd (LCD_BACKLIGHT lcd1)] else [])

/-- Configuration struct lcd_config (lcd.h lines 47-57).  Pin numbers and
bit indices are modelled as Nat (they are shift amounts and GPIO numbers);
the range-checked and sign-checked fields stay Int as in the source. -/
structure LcdConfig where
  rows : Int
  cols : Int
  i2c_addr : Int
  bits : Int
  rs : Nat
  strb : Nat
  d0 : Nat
  d1 : Nat
  d2 : Nat
  d3 : Nat
  d4 : Nat
  d5 : Nat
  d6 : Nat
  d7 : Nat
  backlight : Nat
  backlight_state : Int
  deriving DecidableEq, Repr

/-- The slot-search loop of lcdNew (lcd.c lines 426-433): index of the first
NULL entry of the handle table, scanning from index 0. -/
def firstFree : List (Option Lcd) → Option Nat
  | [] => none
  | none :: _ => some 0
  | some _ :: rest => (firstFree rest).map (· + 1)

/-- The handle populated from the configuration (lcd.c lines 442-467);
i2cFd is the value returned by the external wiringPiI2CSetup call, used
only when i2c_addr is nonzero. -/
def mkLcd (i2cFd : Int) (cfg : LcdConfig) : Lcd :=
  { bits := cfg.bits, rows := cfg.rows, cols := cfg.cols,
    rsPin := cfg.rs, strbPin := cfg.strb,
    d0 := cfg.d0, d1 := cfg.d1, d2 := cfg.d2, d3 := cfg.d3,
    d4 := cfg.d4, d5 := cfg.d5, d6 := cfg.d6, d7 := cfg.d7,
    cx := 0, cy := 0,
    i2c_fd := if cfg.i2c_addr ≠ 0 then i2cFd else 0,
    backlight_bit := cfg.backlight, backlight_state := cfg.backlight_state }

/-- The GPIO initialisation of lcdNew for parallel transport (lcd.c lines
474-481): RS and strobe low and set to output, then each of the first
bits data pins low and set to output (bits is 4 or 8 on this path). -/
def lcdNewPinSetup (lcd : Lcd) : List Ev :=
  [Ev.dw lcd.rsPin 0, Ev.pm lcd.rsPin, Ev.dw lcd.strbPin 0, Ev.pm lcd.strbPin] ++
  ((if lcd.bits = 4 then pins4 lcd else pins8 lcd).flatMap fun p => [Ev.dw p 0, Ev.pm p])

/-- Function lcdNew (lcd.c lines 398-486): validate the configuration,
find the lowest free slot, populate the handle, run the transport
initialisation and wait 35 ms.  Returns the handle (or -1), the updated
table and the trace.  The malloc of the source is modelled as always
succeeding; the static first-call zeroing of the table is the caller
supplying the table state. -/
def lcdNew (i2cFd : Int) (table : List (Option Lcd)) (cfg : LcdConfig) :
    Int × List (Option Lcd) × List Ev :=
  if ¬(cfg.bits = 4 ∨ cfg.bits = 8) then (-1, table, [])
  else if cfg.rows < 0 ∨ cfg.rows > 20 then (-1, table, [])
  else if cfg.cols < 0 ∨ cfg.cols > 20 then (-1, table, [])
  else
    match firstFree table with
    | none => (-1, table, [])
    | some i =>
      let lcd := mkLcd i2cFd cfg
      let tr := if lcd.i2c_fd ≠ 0 then [Ev.i2c lcd.i2c_fd (LCD_BACKLIGHT lcd)]
                else lcdNewPinSetup lcd
      ((i : Int), table.set i (some lcd), tr ++ [Ev.dms 35])

/-- Function lcdReinit (lcd.c lines 488-540): the reset-to-operating-mode
sequence.  4-bit: the high nibble of FUNC|DL (0x30 >> 4 = 3) three times,
then the high nibble of FUNC (0x20 >> 4 = 2), 35 ms after each; 8-bit:
FUNC|DL three times.  Then the two-line bit if rows > 1, display on,
cursor off, blink off, clear, entry mode, shift direction. -/
def lcdReinit (ctrl : Nat) (lcd : Lcd) : Nat × Lcd × List Ev :=
  let head : List Ev :=
    if lcd.bits = 4 then
      put4Command lcd (0x30 >>> 4) ++ [Ev.dms 35] ++
      put4Command lcd (0x30 >>> 4) ++ [Ev.dms 35] ++
      put4Command lcd (0x30 >>> 4) ++ [Ev.dms 35] ++
      put4Command lcd (0x20 >>> 4) ++ [Ev.dms 35]
    else
      putCommand lcd 0x30 ++ [Ev.dms 35] ++
      putCommand lcd 0x30 ++ [Ev.dms 35] ++
      putCommand lcd 0x30 ++ [Ev.dms 35]
  let func : Nat := if lcd.bits = 4 then 0x20 else 0x30
  let headN : List Ev :=
    if lcd.rows > 1 then putCommand lcd (func ||| 0x08) ++ [Ev.dms 35] else []
  let r1 := lcdDisplay ctrl lcd 1
  let r2 := lcdCursor r1.1 lcd 0
  let r3 := lcdCursorBlink r2.1 lcd 0
  let r4 := lcdClear lcd
  (r3.1, r4.1,
   head ++ headN ++ r1.2 ++ r2.2 ++ r3.2 ++ r4.2 ++
   putCommand r4.1 0x06 ++ putCommand r4.1 0x14)

/-- Function lcdInit (lcd.c lines 549-559): lcdNew followed by lcdReinit on
success. -/
def lcdInit (i2cFd : Int) (ctrl : Nat) (table : List (Option Lcd)) (cfg : LcdConfig) :
    Int × Nat × List (Option Lcd) × List Ev :=
  let r := lcdNew i2cFd table cfg
  if r.1 < 0 then (-1, ctrl, r.2.1, r.2.2)
  else
    match r.2.1[r.1.toNat]? with
    | some (some lcd) =>
      let q := lcdReinit ctrl lcd
      (r.1, q.1, r.2.1.set r.1.toNat (some q.2.1), r.2.2 ++ q.2.2)
    | _ => (-1, ctrl, r.2.1, r.2.2)

/-- Projection of the three configuration fields whose bounds the data
model asserts. -/
def dims (lcd : Lcd) : Int × Int × Int := (lcd.bits, lcd.rows, lcd.cols)

/-- Recogniser for the single-nibble marker events. -/
def isNibEv (e : Ev) : Bool :=
  match e with
  | Ev.nib _ => true
  | _ => false

/-- Does a trace contain a single-nibble command write? -/
def hasNib (tr : List Ev) : Bool := tr.any isNibEv

/-- The bytes a trace writes to the I2C port expander, in order. -/
def i2cBytes (tr : List Ev) : List Nat :=
  tr.filterMap fun e =>
    match e with
    | Ev.i2c _ b => some b
    | _ => none

/-- Every expander byte of the trace carries the current backlight state at
the backlight bit position. -/
def blOk (lcd : Lcd) (tr : List Ev) : Prop :=
  ∀ b ∈ i2cBytes tr, (b.testBit lcd.backlight_bit = true ↔ lcd.backlight_state ≠ 0)

/-- The backlight bit position is electrically distinct from the RS bit,
the strobe bit and the four data bits of the expander byte (spec section 3:
each is a separate bit index of the port-expander byte). -/
def blFresh (lcd : Lcd) : Prop :=
  lcd.backlight_bit ≠ lcd.rsPin ∧ lcd.backlight_bit ≠ lcd.strbPin ∧
  lcd.backlight_bit ∉ pins4 lcd

/-- Abstract model of the controller address register, as the spec's
invariant section asks: cg says whether the current address counter points
into CGRAM, addr is the counter value. -/
structure HD where
  cg : Bool
  addr : Nat
  deriving DecidableEq, Repr

/-- Advance the controller model by one trace event.  Commands (bus rs=0):
SET_DDRAM (bit 7) and SET_CGRAM (bit 6) load the counter, CLEAR (0x01) and
HOME (0x02, 0x03) reset it to DDRAM address 0; entry-mode, display-control,
shift and function-set commands are modelled as leaving the counter alone.
Data writes auto-increment (the driver always programs increment entry
mode).  Raw transport events carry no extra information for the model. -/
def hdStep (h : HD) (e : Ev) : HD :=
  match e with
  | Ev.bus 0 b =>
    if 0x80 ≤ b then { cg := false, addr := b % 0x80 }
    else if 0x40 ≤ b then { cg := true, addr := b % 0x40 }
    else if b = 1 ∨ b = 2 ∨ b = 3 then { cg := false, addr := 0 }
    else h
  | Ev.bus _ _ => { h with addr := h.addr + 1 }
  | _ => h

/-- Run the controller model over a trace. -/
def hdRun (h : HD) (tr : List Ev) : HD := tr.foldl hdStep h

/-- The stored cursor and the modelled controller address register name the
same DDRAM cell. -/
def synced (h : HD) (lcd : Lcd) : Prop :=
  h.cg = false ∧ 0 ≤ lcd.cx ∧ 0 ≤ lcd.cy ∧ lcd.cy ≤ 3 ∧
  h.addr = rowOff.getD lcd.cy.toNat 0 + lcd.cx.toNat

/-- An empty eight-slot handle table (the state after the static first-call
zeroing in lcdNew). -/
def table0 : List (Option Lcd) := List.replicate 8 none

/-- Concrete 4-bit parallel 16x2 handle used to instantiate the
initialisation theorem. -/
def c1lcd : Lcd :=
  { bits := 4, rows := 2, cols := 16, rsPin := 11, strbPin := 10,
    d0 := 0, d1 := 1, d2 := 2, d3 := 3, d4 := 4, d5 := 5, d6 := 6, d7 := 7,
    cx := 0, cy := 0, i2c_fd := 0, backlight_bit := 0, backlight_state := 0 }

/-- Concrete 16x4 handle: lcdPosition accepts y = rows = 4 and then reads
rowOff out of bounds. -/
def c2lcd : Lcd :=
  { bits := 4, rows := 4, cols := 16, rsPin := 11, strbPin := 10,
    d0 := 0, d1 := 1, d2 := 2, d3 := 3, d4 := 4, d5 := 5, d6 := 6, d7 := 7,
    cx := 0, cy := 0, i2c_fd := 0, backlight_bit := 0, backlight_state := 0 }

/-- Concrete 2x2 handle at the origin for the wrap-law instance. -/
def c3lcd : Lcd :=
  { bits := 4, rows := 2, cols := 2, rsPin := 11, strbPin := 10,
    d0 := 0, d1 := 1, d2 := 2, d3 := 3, d4 := 4, d5 := 5, d6 := 6, d7 := 7,
    cx := 0, cy := 0, i2c_fd := 0, backlight_bit := 0, backlight_state := 0 }

/-- Configuration with rows = 20: accepted by the factory although the
claimed data-model bound is rows <= 4. -/
def c4cfg : LcdConfig :=
  { rows := 20, cols := 16, i2c_addr := 0, bits := 4, rs := 11, strb := 10,
    d0 := 0, d1 := 1, d2 := 2, d3 := 3, d4 := 4, d5 := 5, d6 := 6, d7 := 7,
    backlight := 0, backlight_state := 0 }

/-- Concrete 8-bit parallel 16x2 handle in the synchronised origin state,
used to show lcdCharDef steers the address counter into CGRAM. -/
def c5lcd : Lcd :=
  { bits := 8, rows := 2, cols := 16, rsPin := 11, strbPin := 10,
    d0 := 0, d1 := 1, d2 := 2, d3 := 3, d4 := 4, d5 := 5, d6 := 6, d7 := 7,
    cx := 0, cy := 0, i2c_fd := 0, backlight_bit := 0, backlight_state := 0 }

/-- Valid configuration for the factory theorems. -/
def c6cfg : LcdConfig :=
  { rows := 2, cols := 16, i2c_addr := 0, bits := 4, rs := 11, strb := 10,
    d0 := 0, d1 := 1, d2 := 2, d3 := 3, d4 := 4, d5 := 5, d6 := 6, d7 := 7,
    backlight := 0, backlight_state := 0 }

/-- Handle table whose slot 0 is occupied and slots 1..7 are free. -/
def c6table : List (Option Lcd) :=
  [some (mkLcd 0 c6cfg), none, none, none, none, none, none, none]

/-- Concrete I2C-backed handle wired as in the spec scenarios: data bits at
expander positions 4..7, RS at 0, strobe at 2, backlight at 3. -/
def c7lcd : Lcd :=
  { bits := 4, rows := 2, cols := 16, rsPin := 0, strbPin := 2,
    d0 := 4, d1 := 5, d2 := 6, d3 := 7, d4 := 0, d5 := 0, d6 := 0, d7 := 0,
    cx := 0, cy := 0, i2c_fd := 1, backlight_bit := 3, backlight_state := 1 }

/-- Concrete 16x5 handle: (0,4) is in range by the data model yet indexes
rowOff out of bounds. -/
def c8lcd : Lcd :=
  { bits := 4, rows := 5, cols := 16, rsPin := 11, strbPin := 10,
    d0 := 0, d1 := 1, d2 := 2, d3 := 3, d4 := 4, d5 := 5, d6 := 6, d7 := 7,
    cx := 0, cy := 0, i2c_fd := 0, backlight_bit := 0, backlight_state := 0 }

/-- Configuration with rows = 5 and cols = 2, accepted by the factory;
eight character writes from the origin reach the out-of-bounds rowOff read
in the lcdPutchar wrap path. -/
def c9cfg : LcdConfig :=
  { rows := 5, cols := 2, i2c_addr := 0, bits := 8, rs := 11, strb := 10,
    d0 := 0, d1 := 1, d2 := 2, d3 := 3, d4 := 4, d5 := 5, d6 := 6, d7 := 7,
    backlight := 0, backlight_state := 0 }

/-- Configuration with rows = 20, accepted by the factory; lcdPosition on
the resulting handle accepts y = 10 and reads rowOff out of bounds. -/
def c9pcfg : LcdConfig :=
  { rows := 20, cols := 16, i2c_addr := 0, bits := 8, rs := 11, strb := 10,
    d0 := 0, d1 := 1, d2 := 2, d3 := 3, d4 := 4, d5 := 5, d6 := 6, d7 := 7,
    backlight := 0, backlight_state := 0 }

lemma dims_lcdPosition (lcd : Lcd) (x y : Int) (p : Lcd × List Ev)
    (h : lcdPosition lcd x y = some p) : dims p.1 = dims lcd := by
  simp only [lcdPosition] at h
  split at h
  · cases h; rfl
  · split at h
    · cases h; rfl
    · split at h
      · cases h
      · cases h; rfl

lemma dims_lcdPutchar (lcd : Lcd) (d : Nat) (p : Lcd × List Ev)
    (h : lcdPutchar lcd d = some p) : dims p.1 = dims lcd := by
  simp only [lcdPutchar] at h
  split at h
  · split at h
    · cases h
    · cases h
      split
      · rfl
      · rfl
  · cases h; rfl

lemma dims_lcdPuts (lcd : Lcd) (bs : List Nat) (p : Lcd × List Ev)
    (h : lcdPuts lcd bs = some p) : dims p.1 = dims lcd := by
  induction bs generalizing lcd p with
  | nil => cases h; rfl
  | cons b rest ih =>
    simp only [lcdPuts, Option.bind_eq_bind, Option.bind_eq_some] at h
    obtain ⟨⟨l1, t1⟩, h1, h2⟩ := h
    obtain ⟨⟨l2, t2⟩, h3, h4⟩ := h2
    cases h4
    exact (ih l1 ⟨l2, t2⟩ h3).trans (dims_lcdPutchar lcd b ⟨l1, t1⟩ h1)

lemma firstFree_spec (t : List (Option Lcd)) (i : Nat) (h : firstFree t = some i) :
    i < t.length ∧ t[i]? = some none ∧ ∀ j, j < i → t[j]? ≠ some none := by
  induction t generalizing i with
  | nil => simp [firstFree] at h
  | cons e rest ih =>
    match e with
    | none =>
      simp only [firstFree, Option.some.injEq] at h
      subst h
      exact ⟨by simp, by simp, fun j hj => absurd hj (by omega)⟩
    | some l =>
      simp only [firstFree, Option.map_eq_some'] at h
      obtain ⟨i', hi', rfl⟩ := h
      obtain ⟨h1, h2, h3⟩ := ih i' hi'
      refine ⟨by simpa using h1, by simpa using h2, ?_⟩
      intro j hj
      match j with
      | 0 => simp
      | j' + 1 => simpa using h3 j' (by omega)

lemma firstFree_of_lowest (t : List (Option Lcd)) (i : Nat) (hlen : i < t.length)
    (hnone : t[i]? = some none) (hmin : ∀ j, j < i → t[j]? ≠ some none) :
    firstFree t = some i := by
  induction t generalizing i with
  | nil => simp at hlen
  | cons e rest ih =>
    match i with
    | 0 =>
      simp only [List.getElem?_cons_zero, Option.some.injEq] at hnone
      subst hnone
      rfl
    | i' + 1 =>
      have h0 := hmin 0 (by omega)
      simp only [List.getElem?_cons_zero, ne_eq, Option.some.injEq] at h0
      match e with
      | none => exact absurd rfl h0
      | some l =>
        have := ih i' (by simpa using hlen) (by simpa using hnone)
          (fun j hj => by simpa using hmin (j + 1) (by omega))
        simp [firstFree, this]

lemma firstFree_none_iff (t : List (Option Lcd)) :
    firstFree t = none ↔ ∀ sl ∈ t, sl ≠ none := by
  induction t with
  | nil => simp [firstFree]
  | cons e rest ih =>
    match e with
    | none => simp [firstFree]
    | some l => simp [firstFree, ih]

/-- C10: lcdCharDef leaves every component of the driver state unchanged:
the control shadow, the whole handle (in particular cx, cy and the
backlight state) are returned exactly as given, and its trace consists
only of the CGRAM-address command and the eight data-byte transport
writes. -/
theorem lcdCharDef_frame (ctrl : Nat) (lcd : Lcd) (index : Int) (data : Fin 8 → Nat) :
    (lcdCharDef ctrl lcd index data).1 = ctrl ∧
    (lcdCharDef ctrl lcd index data).2.1 = lcd ∧
    (lcdCharDef ctrl lcd index data).2.1.cx = lcd.cx ∧
    (lcdCharDef ctrl lcd index data).2.1.cy = lcd.cy ∧
    (lcdCharDef ctrl lcd index data).2.1.backlight_state = lcd.backlight_state ∧
    (lcdCharDef ctrl lcd index data).2.2 =
      putCommand lcd ((0x40 ||| (((index % 8).toNat) <<< 3)) % 256) ++
      sendDataCmd lcd (data 0) 1 ++ sendDataCmd lcd (data 1) 1 ++
      sendDataCmd lcd (data 2) 1 ++ sendDataCmd lcd (data 3) 1 ++
      sendDataCmd lcd (data 4) 1 ++ sendDataCmd lcd (data 5) 1 ++
      sendDataCmd lcd (data 6) 1 ++ sendDataCmd lcd (data 7) 1 :=
  ⟨rfl, rfl, rfl, rfl, rfl, rfl⟩

/-- C9: the rowOff table reads do NOT stay in bounds.  The factory accepts
rows = 5 with cols = 2; eight characters written from the origin drive the
lcdPutchar wrap path to cy = 4 and the embedded rowOff lookup hits its
out-of-bounds branch (result none).  Likewise the factory accepts
rows = 20, and lcdPosition on that handle accepts y = 10 (10 > rows is
false) and hits the same out-of-bounds branch. -/
theorem rowOff_out_of_bounds :
    (lcdNew 0 table0 c9cfg).1 = 0 ∧
    lcdPuts (mkLcd 0 c9cfg) [65, 65, 65, 65, 65, 65, 65, 65] = none ∧
    (lcdNew 0 table0 c9pcfg).1 = 0 ∧
    ¬((10 : Int) > (mkLcd 0 c9pcfg).rows) ∧
    lcdPosition (mkLcd 0 c9pcfg) 0 10 = none :=
  ⟨rfl, rfl, rfl, by decide, rfl⟩

/-- C2 counterexample: on a 16x4 handle the pair (x, y) = (0, 4) is
accepted by both range checks of lcdPosition (4 exceeds neither rows = 4
nor is negative), yet no SET_DDRAM command is emitted and the cursor is
not updated: the rowOff lookup is out of bounds (none), contradicting the
claimed behaviour of the accepted branch. -/
theorem lcdPosition_accepts_row4_oob :
    ¬((0 : Int) > c2lcd.cols) ∧ ¬((0 : Int) < 0) ∧
    ¬((4 : Int) > c2lcd.rows) ∧ ¬((4 : Int) < 0) ∧
    lcdPosition c2lcd 0 4 = none :=
  ⟨by decide, by decide, by decide, by decide, rfl⟩

/-- C8 counterexample: (0, 4) is in range on a 16x5 handle
(0 <= 0 < cols, 0 <= 4 < rows), yet already the first lcdPosition call
emits no SET_DDRAM command at all - the rowOff lookup is out of bounds -
so the pair of calls cannot emit two identical SET_DDRAM commands. -/
theorem lcdPosition_idem_fails_oob :
    (0 : Int) ≤ 0 ∧ 0 < c8lcd.cols ∧ (0 : Int) ≤ 4 ∧ 4 < c8lcd.rows ∧
    lcdPosition c8lcd 0 4 = none :=
  ⟨by decide, by decide, by decide, by decide, rfl⟩

/-- C4 counterexample: the configuration c4cfg with rows = 20 is accepted
by the factory (handle 0 is returned) and the constructed handle stores
rows = 20, violating the claimed bound rows <= 4. -/
theorem lcdNew_accepts_rows20 :
    (lcdNew 0 table0 c4cfg).1 = 0 ∧
    (lcdNew 0 table0 c4cfg).2.1.head? = some (some (mkLcd 0 c4cfg)) ∧
    (mkLcd 0 c4cfg).rows = 20 ∧ ¬((mkLcd 0 c4cfg).rows ≤ 4) :=
  ⟨rfl, rfl, rfl, by decide⟩


/-- C6: lcdNew returns -1 exactly when the configuration fails one of the
three sanity checks or the eight-slot table has no free slot (the malloc
of the source is modelled as succeeding; an allocation failure is a
further -1 case of the C code not representable in the pure model).
Otherwise it returns the lowest index of a free slot and stores the
populated handle there. -/
theorem lcdNew_sentinel (i2cFd : Int) (table : List (Option Lcd)) (cfg : LcdConfig)
    (hlen : table.length = 8) :
    ((lcdNew i2cFd table cfg).1 = -1 ↔
      (¬(cfg.bits = 4 ∨ cfg.bits = 8) ∨ cfg.rows < 0 ∨ 20 < cfg.rows ∨
       cfg.cols < 0 ∨ 20 < cfg.cols ∨ ∀ sl ∈ table, sl ≠ none)) ∧
    (∀ i : Nat, (cfg.bits = 4 ∨ cfg.bits = 8) → 0 ≤ cfg.rows → cfg.rows ≤ 20 →
       0 ≤ cfg.cols → cfg.cols ≤ 20 →
       i < 8 → table[i]? = some none → (∀ j, j < i → table[j]? ≠ some none) →
       (lcdNew i2cFd table cfg).1 = (i : Int) ∧
       (lcdNew i2cFd table cfg).2.1[i]? = some (some (mkLcd i2cFd cfg))) := by
  constructor
  · rw [← firstFree_none_iff]
    simp only [lcdNew]
    by_cases h1 : cfg.bits = 4 ∨ cfg.bits = 8
    · rw [if_neg (not_not_intro h1)]
      by_cases h2 : cfg.rows < 0 ∨ cfg.rows > 20
      · rw [if_pos h2]
        constructor
        · intro _
          rcases h2 with h | h
          · exact Or.inr (Or.inl h)
          · exact Or.inr (Or.inr (Or.inl h))
        · intro _
          rfl
      · rw [if_neg h2]
        by_cases h3 : cfg.cols < 0 ∨ cfg.cols > 20
        · rw [if_pos h3]
          constructor
          · intro _
            rcases h3 with h | h
            · exact Or.inr (Or.inr (Or.inr (Or.inl h)))
            · exact Or.inr (Or.inr (Or.inr (Or.inr (Or.inl h))))
          · intro _
            rfl
        · rw [if_neg h3]
          cases hf : firstFree table with
          | none => simp [hf]
          | some i =>
            simp only [hf]
            constructor
            · intro h
              exact absurd h (by omega)
            · intro h
              rcases h with h | h | h | h | h | h
              · exact absurd h1 h
              · omega
              · omega
              · omega
              · omega
              · exact absurd h (by simp)
    · rw [if_pos h1]
      constructor
      · intro _
        exact Or.inl h1
      · intro _
        rfl
  · intro i hb hr0 hr20 hc0 hc20 hi8 hnone hmin
    have hf := firstFree_of_lowest table i (by omega) hnone hmin
    have hnb : ¬(¬cfg.bits = 4 ∧ ¬cfg.bits = 8) := by tauto
    constructor
    · simp [lcdNew, hnb, if_neg (not_not_intro hb),
        if_neg (by omega : ¬(cfg.rows < 0 ∨ cfg.rows > 20)),
        if_neg (by omega : ¬(cfg.cols < 0 ∨ cfg.cols > 20)), hf]
    · simp only [lcdNew, hnb, if_neg (not_not_intro hb),
        if_neg (by omega : ¬(cfg.rows < 0 ∨ cfg.rows > 20)),
        if_neg (by omega : ¬(cfg.cols < 0 ∨ cfg.cols > 20)), hf]
      exact List.getElem?_set_eq_of_lt _ (by omega)

/-- C6 witness: on a table whose slot 0 is occupied and slots 1..7 are
free, the factory with a valid configuration returns handle 1 and fills
slot 1. -/
theorem lcdNew_sentinel_witness :
    (lcdNew 0 c6table c6cfg).1 = 1 ∧
    (lcdNew 0 c6table c6cfg).2.1[1]? = some (some (mkLcd 0 c6cfg)) := by
  have h := (lcdNew_sentinel 0 c6table c6cfg rfl).2 1 (Or.inl rfl)
    (by decide) (by decide) (by decide) (by decide) (by decide) (by decide)
  exact h (by intro j hj; interval_cases j; decide)

/-- C4 (amended): every configuration the factory accepts satisfies
bus width 4 or 8, 0 <= rows <= 20 and 0 <= cols <= 20; the constructed
handle stores exactly those fields, and no public operation ever changes
the bits, rows or cols fields of a handle. -/
theorem lcdNew_bounds :
    (∀ (i2cFd : Int) (table : List (Option Lcd)) (cfg : LcdConfig),
       0 ≤ (lcdNew i2cFd table cfg).1 →
       ((mkLcd i2cFd cfg).bits = 4 ∨ (mkLcd i2cFd cfg).bits = 8) ∧
       0 ≤ (mkLcd i2cFd cfg).rows ∧ (mkLcd i2cFd cfg).rows ≤ 20 ∧
       0 ≤ (mkLcd i2cFd cfg).cols ∧ (mkLcd i2cFd cfg).cols ≤ 20 ∧
       (lcdNew i2cFd table cfg).2.1[(lcdNew i2cFd table cfg).1.toNat]? =
         some (some (mkLcd i2cFd cfg))) ∧
    (∀ lcd : Lcd,
       dims (lcdHome lcd).1 = dims lcd ∧
       dims (lcdClear lcd).1 = dims lcd ∧
       (∀ s, dims (lcdBacklight lcd s).1 = dims lcd) ∧
       (∀ ctrl index data, dims (lcdCharDef ctrl lcd index data).2.1 = dims lcd) ∧
       (∀ ctrl, dims (lcdReinit ctrl lcd).2.1 = dims lcd) ∧
       (∀ x y p, lcdPosition lcd x y = some p → dims p.1 = dims lcd) ∧
       (∀ d p, lcdPutchar lcd d = some p → dims p.1 = dims lcd) ∧
       (∀ bs p, lcdPuts lcd bs = some p → dims p.1 = dims lcd)) := by
  constructor
  · intro i2cFd table cfg hpos
    by_cases hb : cfg.bits = 4 ∨ cfg.bits = 8
    · by_cases hr : cfg.rows < 0 ∨ cfg.rows > 20
      · simp [lcdNew, if_neg (not_not_intro hb), if_pos hr] at hpos
      · by_cases hc : cfg.cols < 0 ∨ cfg.cols > 20
        · simp [lcdNew, if_neg (not_not_intro hb), if_neg hr, if_pos hc] at hpos
        · cases hf : firstFree table with
          | none =>
            simp [lcdNew, if_neg (not_not_intro hb), if_neg hr, if_neg hc, hf] at hpos
          | some i =>
            obtain ⟨hlt, _, _⟩ := firstFree_spec table i hf
            refine ⟨hb, by show (0:Int) ≤ cfg.rows; omega, by show cfg.rows ≤ 20; omega,
              by show (0:Int) ≤ cfg.cols; omega, by show cfg.cols ≤ 20; omega, ?_⟩
            simp only [lcdNew, if_neg (not_not_intro hb), if_neg hr, if_neg hc, hf]
            simpa using List.getElem?_set_eq_of_lt (some (mkLcd i2cFd cfg)) hlt
    · have hb4 : ¬cfg.bits = 4 := fun h => hb (Or.inl h)
      have hb8 : ¬cfg.bits = 8 := fun h => hb (Or.inr h)
      simp [lcdNew, hb4, hb8] at hpos
  · intro lcd
    exact ⟨rfl, rfl, fun s => rfl, fun ctrl index data => rfl, fun ctrl => rfl,
      dims_lcdPosition lcd, dims_lcdPutchar lcd, dims_lcdPuts lcd⟩

/-- C4 witness: the amended bounds at the concrete accepted configuration
c6cfg, instantiated on the empty table. -/
theorem lcdNew_bounds_witness :
    ((mkLcd 0 c6cfg).bits = 4 ∨ (mkLcd 0 c6cfg).bits = 8) ∧
    0 ≤ (mkLcd 0 c6cfg).rows ∧ (mkLcd 0 c6cfg).rows ≤ 20 ∧
    0 ≤ (mkLcd 0 c6cfg).cols ∧ (mkLcd 0 c6cfg).cols ≤ 20 ∧
    (lcdNew 0 table0 c6cfg).2.1[(lcdNew 0 table0 c6cfg).1.toNat]? =
      some (some (mkLcd 0 c6cfg)) :=
  lcdNew_bounds.1 0 table0 c6cfg (by decide)

lemma pos_byte (r n : Nat) (hr : r ∈ rowOff) (hn : n ≤ 20) :
    (n + (0x80 ||| r)) % 256 = 0x80 ||| (r + n) := by
  have h4 : r = 0x00 ∨ r = 0x40 ∨ r = 0x14 ∨ r = 0x54 := by simpa [rowOff] using hr
  rcases h4 with rfl | rfl | rfl | rfl
  · exact (by decide : ∀ m ≤ 20, (m + (0x80 ||| 0x00)) % 256 = 0x80 ||| (0x00 + m)) n hn
  · exact (by decide : ∀ m ≤ 20, (m + (0x80 ||| 0x40)) % 256 = 0x80 ||| (0x40 + m)) n hn
  · exact (by decide : ∀ m ≤ 20, (m + (0x80 ||| 0x14)) % 256 = 0x80 ||| (0x14 + m)) n hn
  · exact (by decide : ∀ m ≤ 20, (m + (0x80 ||| 0x54)) % 256 = 0x80 ||| (0x54 + m)) n hn

/-- C2 (amended): lcdPosition silently ignores (no event, state unchanged)
exactly the calls with x negative or exceeding cols, or y negative or
exceeding rows.  On the accepted path the emitted command and the cursor
update are as claimed PROVIDED y <= 3: the single command byte is
0x80 | (rowOff[y] + x) with RS=0 and afterwards cx = x, cy = y.  For
accepted y >= 4 (reachable, since y = rows is accepted and the factory
admits rows up to 20) the rowOff read is out of bounds - see the
counterexample - so the emission statement is restricted to y <= 3, which
covers every in-range pair whenever rows <= 4. -/
theorem lcdPosition_spec :
    ∀ (lcd : Lcd) (x y : Int),
      ((x > lcd.cols ∨ x < 0 ∨ y > lcd.rows ∨ y < 0) →
        lcdPosition lcd x y = some (lcd, [])) ∧
      (¬(x > lcd.cols) → ¬(x < 0) → ¬(y > lcd.rows) → ¬(y < 0) → y ≤ 3 →
       lcd.cols ≤ 20 →
        ∃ r, rowOffI y = some r ∧
          lcdPosition lcd x y =
            some ({ lcd with cx := x, cy := y },
                  putCommand lcd ((x.toNat + (0x80 ||| r)) % 256)) ∧
          (x.toNat + (0x80 ||| r)) % 256 = 0x80 ||| (r + x.toNat)) := by
  intro lcd x y
  constructor
  · intro h
    simp only [lcdPosition]
    by_cases hx : x > lcd.cols ∨ x < 0
    · rw [if_pos hx]
    · rw [if_neg hx]
      have hy : y > lcd.rows ∨ y < 0 := by tauto
      rw [if_pos hy]
  · intro hx1 hx2 hy1 hy2 hy3 hcols
    have hy0 : (0:Int) ≤ y := by omega
    have hxn : x.toNat ≤ 20 := by omega
    have hnx : ¬(x > lcd.cols ∨ x < 0) := by tauto
    interval_cases y
    · exact ⟨0x00, rfl, by simp only [lcdPosition, if_neg hnx,
        if_neg (by omega : ¬((0:Int) > lcd.rows ∨ (0:Int) < 0))]; rfl,
        pos_byte 0x00 x.toNat (by decide) hxn⟩
    · exact ⟨0x40, rfl, by simp only [lcdPosition, if_neg hnx,
        if_neg (by omega : ¬((1:Int) > lcd.rows ∨ (1:Int) < 0))]; rfl,
        pos_byte 0x40 x.toNat (by decide) hxn⟩
    · exact ⟨0x14, rfl, by simp only [lcdPosition, if_neg hnx,
        if_neg (by omega : ¬((2:Int) > lcd.rows ∨ (2:Int) < 0))]; rfl,
        pos_byte 0x14 x.toNat (by decide) hxn⟩
    · exact ⟨0x54, rfl, by simp only [lcdPosition, if_neg hnx,
        if_neg (by omega : ¬((3:Int) > lcd.rows ∨ (3:Int) < 0))]; rfl,
        pos_byte 0x54 x.toNat (by decide) hxn⟩

/-- C2 witness: the amended behaviour at the concrete in-range call
(3, 1) on the 16x4 handle: the command byte is 0xC3 = 0x80 | (0x40 + 3)
and the cursor moves to (3, 1). -/
theorem lcdPosition_spec_witness :
    lcdPosition c2lcd 3 1 =
      some ({ c2lcd with cx := 3, cy := 1 }, putCommand c2lcd 0xC3) := by
  obtain ⟨r, hr, heq, hbyte⟩ := (lcdPosition_spec c2lcd 3 1).2
    (by decide) (by decide) (by decide) (by decide) (by decide) (by decide)
  have : r = 0x40 := by
    have : rowOffI 1 = some 0x40 := rfl
    rw [this] at hr
    exact (Option.some.injEq _ _ ▸ hr.symm :)
  subst this
  exact heq

/-- C8 (amended): two successive lcdPosition calls with the same in-range
arguments and y <= 3 (always the case on a display honouring the
data-model bound rows <= 4) emit two identical SET_DDRAM command traces
and the state after the second call equals the state after the first.
Without y <= 3 the claim fails: see the counterexample, where in-range
(0, 4) on a rows = 5 handle makes the first call hit the out-of-bounds
rowOff read and emit nothing. -/
theorem lcdPosition_idempotent :
    ∀ (lcd : Lcd) (x y : Int), 0 ≤ x → x < lcd.cols → 0 ≤ y → y < lcd.rows → y ≤ 3 →
      ∃ r, rowOffI y = some r ∧
        lcdPosition lcd x y =
          some ({ lcd with cx := x, cy := y },
                putCommand lcd ((x.toNat + (0x80 ||| r)) % 256)) ∧
        lcdPosition { lcd with cx := x, cy := y } x y =
          some ({ lcd with cx := x, cy := y },
                putCommand lcd ((x.toNat + (0x80 ||| r)) % 256)) := by
  intro lcd x y hx0 hxc hy0 hyr hy3
  have hnx : ¬(x > lcd.cols ∨ x < 0) := by omega
  have hnx' : ¬(x > ({ lcd with cx := x, cy := y } : Lcd).cols ∨ x < 0) := by
    show ¬(x > lcd.cols ∨ x < 0)
    omega
  interval_cases y
  · refine ⟨0x00, rfl, ?_, ?_⟩
    · simp only [lcdPosition, if_neg hnx,
        if_neg (by omega : ¬((0:Int) > lcd.rows ∨ (0:Int) < 0))]
      rfl
    · simp only [lcdPosition, if_neg hnx',
        if_neg (by show ¬((0:Int) > lcd.rows ∨ (0:Int) < 0); omega)]
      rfl
  · refine ⟨0x40, rfl, ?_, ?_⟩
    · simp only [lcdPosition, if_neg hnx,
        if_neg (by omega : ¬((1:Int) > lcd.rows ∨ (1:Int) < 0))]
      rfl
    · simp only [lcdPosition, if_neg hnx',
        if_neg (by show ¬((1:Int) > lcd.rows ∨ (1:Int) < 0); omega)]
      rfl
  · refine ⟨0x14, rfl, ?_, ?_⟩
    · simp only [lcdPosition, if_neg hnx,
        if_neg (by omega : ¬((2:Int) > lcd.rows ∨ (2:Int) < 0))]
      rfl
    · simp only [lcdPosition, if_neg hnx',
        if_neg (by show ¬((2:Int) > lcd.rows ∨ (2:Int) < 0); omega)]
      rfl
  · refine ⟨0x54, rfl, ?_, ?_⟩
    · simp only [lcdPosition, if_neg hnx,
        if_neg (by omega : ¬((3:Int) > lcd.rows ∨ (3:Int) < 0))]
      rfl
    · simp only [lcdPosition, if_neg hnx',
        if_neg (by show ¬((3:Int) > lcd.rows ∨ (3:Int) < 0); omega)]
      rfl

/-- C8 witness: the double call at (2, 1) on the 16x5 handle: both calls
produce the same SET_DDRAM trace and the second leaves the state of the
first unchanged. -/
theorem lcdPosition_idempotent_witness :
    lcdPosition c8lcd 2 1 =
      some ({ c8lcd with cx := 2, cy := 1 }, putCommand c8lcd 0xC2) ∧
    lcdPosition { c8lcd with cx := 2, cy := 1 } 2 1 =
      some ({ c8lcd with cx := 2, cy := 1 }, putCommand c8lcd 0xC2) := by
  obtain ⟨r, hr, h1, h2⟩ := lcdPosition_idempotent c8lcd 2 1
    (by decide) (by decide) (by decide) (by decide) (by decide)
  have hr' : r = 0x40 := by
    have h0 : rowOffI 1 = some 0x40 := rfl
    rw [h0] at hr
    exact (Option.some.injEq _ _ ▸ hr.symm :)
  subst hr'
  exact ⟨h1, h2⟩

lemma lcdPutchar_step (lcd : Lcd) (d : Nat) (h : lcd.cx + 1 ≠ lcd.cols) :
    lcdPutchar lcd d = some ({ lcd with cx := lcd.cx + 1 }, sendDataCmd lcd d 1) := by
  simp only [lcdPutchar]
  rw [if_neg h]

lemma lcdPuts_row_fill (bs : List Nat) (b : Nat) :
    ∀ (lcd : Lcd), lcd.cy = 0 → 0 ≤ lcd.cx → 2 ≤ lcd.rows →
      lcd.cx + ((bs.length : Int) + 1) = lcd.cols →
      lcdPuts lcd (bs ++ [b]) =
        some ({ lcd with cx := 0, cy := 1 },
              (bs.map fun c => sendDataCmd lcd c 1).flatten ++
              (sendDataCmd lcd b 1 ++ putCommand { lcd with cx := 0, cy := 1 } 0xC0)) := by
  induction bs with
  | nil =>
    intro lcd hcy hcx hrows hcols
    have hwrap : lcd.cx + 1 = lcd.cols := by
      simp only [List.length_nil] at hcols
      push_cast at hcols
      omega
    have hput : lcdPutchar lcd b =
        some ({ lcd with cx := 0, cy := 1 },
              sendDataCmd lcd b 1 ++ putCommand { lcd with cx := 0, cy := 1 } 0xC0) := by
      simp only [lcdPutchar]
      rw [if_pos hwrap, if_neg (by omega : ¬(lcd.cy + 1 = lcd.rows)),
        (by omega : lcd.cy + 1 = (1 : Int))]
      simp only [rowOffI, (show rowOff[1]? = some (0x40 : Nat) from rfl)]
      rfl
    simp only [List.nil_append, lcdPuts, hput, Option.bind_eq_bind, Option.some_bind,
      List.map_nil, List.flatten_nil, List.append_nil]
  | cons a bs ih =>
    intro lcd hcy hcx hrows hcols
    have hne : lcd.cx + 1 ≠ lcd.cols := by
      simp only [List.length_cons] at hcols
      push_cast at hcols
      omega
    have hih := ih { lcd with cx := lcd.cx + 1 } hcy
      (by show (0:Int) ≤ lcd.cx + 1; omega) hrows
      (by show lcd.cx + 1 + ((bs.length : Int) + 1) = lcd.cols
          simp only [List.length_cons] at hcols
          push_cast at hcols ⊢
          omega)
    simp only [List.cons_append, lcdPuts, lcdPutchar_step lcd a hne, hih,
      Option.bind_eq_bind, Option.some_bind, List.append_eq, List.map_cons,
      List.flatten_cons, List.append_assoc]
    rfl

/-- C3: each lcdPutchar sends its byte as data (RS=1) and increments cx;
when cx reaches cols it resets cx to 0, increments cy (wrapping to 0 at
rows) and emits the SET_DDRAM resynchronisation command (given the
data-model bounds 0 <= cy < rows <= 4, which keep the rowOff lookup
defined).  Consequently, writing exactly cols bytes from the origin of a
display with cols >= 1 and rows >= 2 leaves the cursor at (0, 1), and the
trace ends with the cols-th data write immediately followed by the
SET_DDRAM command 0xC0 for row 1, before any later write. -/
theorem lcdPutchar_wrap_law :
    (∀ (lcd : Lcd) (d : Nat),
       (lcd.cx + 1 ≠ lcd.cols →
         lcdPutchar lcd d = some ({ lcd with cx := lcd.cx + 1 }, sendDataCmd lcd d 1)) ∧
       (lcd.cx + 1 = lcd.cols → 0 ≤ lcd.cy → lcd.cy < lcd.rows → lcd.rows ≤ 4 →
         ∃ r, rowOffI (if lcd.cy + 1 = lcd.rows then 0 else lcd.cy + 1) = some r ∧
           lcdPutchar lcd d =
             some ({ lcd with cx := 0, cy := if lcd.cy + 1 = lcd.rows then 0 else lcd.cy + 1 },
                   sendDataCmd lcd d 1 ++ putCommand lcd ((0x80 ||| r) % 256)))) ∧
    (∀ (lcd : Lcd) (bs : List Nat) (b : Nat),
       lcd.cx = 0 → lcd.cy = 0 → 2 ≤ lcd.rows → ((bs.length : Int) + 1 = lcd.cols) →
         lcdPuts lcd (bs ++ [b]) =
           some ({ lcd with cx := 0, cy := 1 },
                 (bs.map fun c => sendDataCmd lcd c 1).flatten ++
                 (sendDataCmd lcd b 1 ++ putCommand lcd 0xC0))) := by
  constructor
  · intro lcd d
    constructor
    · exact lcdPutchar_step lcd d
    · intro h hcy0 hcyr hrows4
      by_cases hw : lcd.cy + 1 = lcd.rows
      · refine ⟨0x00, ?_, ?_⟩
        · rw [if_pos hw]
          rfl
        · rw [if_pos hw]
          simp only [lcdPutchar]
          rw [if_pos h, if_pos hw]
          simp only [rowOffI, (show rowOff[0]? = some (0x00 : Nat) from rfl)]
          rfl
      · have hcy2 : lcd.cy ≤ 2 := by omega
        obtain ⟨bits, rows, cols, rsPin, strbPin, d0, d1, d2, d3, d4, d5, d6, d7,
          cx, cy, fd, blb, bls⟩ := lcd
        dsimp only at h hcy0 hcyr hrows4 hw hcy2 ⊢
        interval_cases cy
        · refine ⟨0x40, by rw [if_neg hw]; try rfl, ?_⟩
          rw [if_neg hw]
          simp only [lcdPutchar]
          rw [if_pos h, if_neg hw]
          simp only [rowOffI, (show rowOff[1]? = some (0x40 : Nat) from rfl)]
          rfl
        · refine ⟨0x14, by rw [if_neg hw]; try rfl, ?_⟩
          rw [if_neg hw]
          simp only [lcdPutchar]
          rw [if_pos h, if_neg hw]
          simp only [rowOffI, (show rowOff[2]? = some (0x14 : Nat) from rfl)]
          rfl
        · refine ⟨0x54, by rw [if_neg hw]; try rfl, ?_⟩
          rw [if_neg hw]
          simp only [lcdPutchar]
          rw [if_pos h, if_neg hw]
          simp only [rowOffI, (show rowOff[3]? = some (0x54 : Nat) from rfl)]
          rfl
  · intro lcd bs b hcx hcy hrows hlen
    have h := lcdPuts_row_fill bs b lcd hcy (by omega) hrows (by omega)
    exact h

/-- C3 witness: on the 2x2 display at the origin, one putchar moves the
cursor to (1, 0) without wrap, and writing exactly cols = 2 bytes emits
the two data writes followed by the SET_DDRAM command 0xC0 and leaves the
cursor at (0, 1). -/
theorem lcdPutchar_wrap_law_witness :
    lcdPutchar c3lcd 72 = some ({ c3lcd with cx := 1 }, sendDataCmd c3lcd 72 1) ∧
    lcdPuts c3lcd ([72] ++ [105]) =
      some ({ c3lcd with cx := 0, cy := 1 },
            ([72].map fun c => sendDataCmd c3lcd c 1).flatten ++
            (sendDataCmd c3lcd 105 1 ++ putCommand c3lcd 0xC0)) := by
  constructor
  · exact (lcdPutchar_wrap_law.1 c3lcd 72).1 (by decide)
  · exact lcdPutchar_wrap_law.2 c3lcd [72] 105 rfl rfl (by decide) (by decide)

lemma any_isNibEv_writeBitsLSB (my : Nat) (ps : List Nat) :
    (writeBitsLSB my ps).any isNibEv = false := by
  induction ps generalizing my with
  | nil => rfl
  | cons p ps ih => simp [writeBitsLSB, isNibEv, ih]

lemma any_isNibEv_sendDataCmd (lcd : Lcd) (d rs : Nat) :
    (sendDataCmd lcd d rs).any isNibEv = false := by
  by_cases hi : lcd.i2c_fd ≠ 0
  · simp [sendDataCmd, hi, i2c_send, isNibEv]
  · by_cases hb : lcd.bits = 4
    · simp [sendDataCmd, hi, hb, strobe, isNibEv, List.any_append,
        any_isNibEv_writeBitsLSB]
    · simp [sendDataCmd, hi, hb, strobe, isNibEv, List.any_append,
        any_isNibEv_writeBitsLSB]

lemma any_isNibEv_putCommand (lcd : Lcd) (c : Nat) :
    (putCommand lcd c).any isNibEv = false := by
  simp [putCommand, List.any_append, any_isNibEv_sendDataCmd, isNibEv]

/-- C1: on every 4-bit handle, lcdReinit's trace begins with exactly the
four single-nibble RS=0 writes of values 3, 3, 3, 2, each immediately
followed by a 35 ms delay, before anything else: the remainder of the
trace contains no further single-nibble write (every later write is a
full command byte).  On parallel transport the single-nibble write is the
RS line driven low, the four nibble bits placed LSB-first on the data
pins, and one strobe pulse. -/
theorem lcdReinit_fourBit_prefix :
    ∀ (ctrl : Nat) (lcd : Lcd), lcd.bits = 4 →
      (∃ tail,
        (lcdReinit ctrl lcd).2.2 =
          put4Command lcd 3 ++ [Ev.dms 35] ++ put4Command lcd 3 ++ [Ev.dms 35] ++
          put4Command lcd 3 ++ [Ev.dms 35] ++ put4Command lcd 2 ++ [Ev.dms 35] ++ tail ∧
        hasNib tail = false) ∧
      (lcd.i2c_fd = 0 →
        ∀ v, put4Command lcd v =
          [Ev.nib v, Ev.dw lcd.rsPin 0,
           Ev.dw lcd.d0 (v &&& 1), Ev.dw lcd.d1 ((v >>> 1) &&& 1),
           Ev.dw lcd.d2 ((v >>> 2) &&& 1), Ev.dw lcd.d3 ((v >>> 3) &&& 1)] ++ strobe lcd) := by
  intro ctrl lcd h4
  constructor
  · refine ⟨(if lcd.rows > 1 then putCommand lcd (0x20 ||| 0x08) ++ [Ev.dms 35] else []) ++
      ((lcdDisplay ctrl lcd 1).2 ++ ((lcdCursor (lcdDisplay ctrl lcd 1).1 lcd 0).2 ++
      ((lcdCursorBlink (lcdCursor (lcdDisplay ctrl lcd 1).1 lcd 0).1 lcd 0).2 ++
      ((lcdClear lcd).2 ++ (putCommand (lcdClear lcd).1 0x06 ++
      putCommand (lcdClear lcd).1 0x14))))), ?_, ?_⟩
    · simp only [lcdReinit]
      rw [if_pos h4, if_pos h4]
      simp only [List.append_assoc,
        (show (0x30 : Nat) >>> 4 = 3 from rfl), (show (0x20 : Nat) >>> 4 = 2 from rfl)]
    · by_cases hr : lcd.rows > 1
      · simp [hr, hasNib, List.any_append, any_isNibEv_putCommand,
          lcdDisplay, lcdCursor, lcdCursorBlink, lcdClear, isNibEv]
      · simp [hr, hasNib, List.any_append, any_isNibEv_putCommand,
          lcdDisplay, lcdCursor, lcdCursorBlink, lcdClear, isNibEv]
  · intro h0 v
    have h : put4Command lcd v =
        Ev.nib v :: (Ev.dw lcd.rsPin 0 :: (writeBitsLSB v (pins4 lcd) ++ strobe lcd)) := by
      simp [put4Command, h0]
    rw [h]
    rfl

set_option maxRecDepth 8192 in
/-- C1 witness: the four-nibble 3, 3, 3, 2 prefix with its 35 ms delays on
the concrete 4-bit parallel handle, the remainder free of single-nibble
writes, and the explicit single-nibble transport pattern for value 3. -/
theorem lcdReinit_fourBit_prefix_witness :
    c1lcd.bits = 4 ∧
    (lcdReinit 0 c1lcd).2.2 =
      put4Command c1lcd 3 ++ [Ev.dms 35] ++ put4Command c1lcd 3 ++ [Ev.dms 35] ++
      put4Command c1lcd 3 ++ [Ev.dms 35] ++ put4Command c1lcd 2 ++ [Ev.dms 35] ++
      ((lcdReinit 0 c1lcd).2.2.drop 44) ∧
    hasNib ((lcdReinit 0 c1lcd).2.2.drop 44) = false ∧
    put4Command c1lcd 3 =
      [Ev.nib 3, Ev.dw c1lcd.rsPin 0, Ev.dw c1lcd.d0 (3 &&& 1),
       Ev.dw c1lcd.d1 ((3 >>> 1) &&& 1), Ev.dw c1lcd.d2 ((3 >>> 2) &&& 1),
       Ev.dw c1lcd.d3 ((3 >>> 3) &&& 1)] ++ strobe c1lcd := by
  have h := lcdReinit_fourBit_prefix 0 c1lcd rfl
  exact ⟨rfl, by decide, by decide, h.2 rfl 3⟩


lemma testBit_shiftLeft_bit (b p k : Nat) (hb : b ≤ 1) (hk : k ≠ p) :
    (b <<< p).testBit k = false := by
  interval_cases b
  · simp [Nat.zero_shiftLeft]
  · rw [Nat.shiftLeft_eq, one_mul]
    rw [Nat.testBit_two_pow]
    simp
    omega

lemma testBit_marshalLoop (k : Nat) :
    ∀ (ps : List Nat) (my acc : Nat), k ∉ ps → acc.testBit k = false →
      (marshalLoop my acc ps).testBit k = false := by
  intro ps
  induction ps with
  | nil => intro my acc _ h; exact h
  | cons p ps ih =>
    intro my acc hk hacc
    have hkp : k ≠ p := fun h => hk (by rw [h]; exact List.mem_cons_self p ps)
    have hone : my &&& 1 ≤ 1 := by rw [Nat.and_one_is_mod]; omega
    simp only [marshalLoop]
    apply ih _ _ (fun h => hk (List.mem_cons_of_mem _ h))
    rw [(show (256 : Nat) = 2 ^ 8 by norm_num), Nat.testBit_mod_two_pow]
    simp only [Nat.testBit_lor, hacc,
      testBit_shiftLeft_bit (my &&& 1) p k hone hkp]
    simp

lemma testBit_marshal4Bits (lcd : Lcd) (d k : Nat) (hk : k ∉ pins4 lcd) :
    (marshal4Bits lcd d).testBit k = false :=
  testBit_marshalLoop k (pins4 lcd) d 0 hk (Nat.zero_testBit k)

lemma testBit_output (lcd : Lcd) (n rs : Nat) (hrs : rs ≤ 1)
    (hk4 : lcd.backlight_bit ∉ pins4 lcd) (hkr : lcd.backlight_bit ≠ lcd.rsPin) :
    ((marshal4Bits lcd n ||| (rs <<< lcd.rsPin)) % 256).testBit lcd.backlight_bit = false := by
  rw [(show (256 : Nat) = 2 ^ 8 by norm_num), Nat.testBit_mod_two_pow]
  simp [Nat.testBit_lor, testBit_marshal4Bits lcd n lcd.backlight_bit hk4,
    testBit_shiftLeft_bit rs lcd.rsPin lcd.backlight_bit hrs hkr]

lemma testBit_backlight_self (lcd : Lcd) (h : lcd.backlight_state ≠ 0) :
    (LCD_BACKLIGHT lcd).testBit lcd.backlight_bit = true := by
  simp only [LCD_BACKLIGHT, if_pos h]
  rw [Nat.shiftLeft_eq, one_mul, Nat.testBit_two_pow]
  simp

lemma i2cBytes_cons_bus (rs d : Nat) (t : List Ev) :
    i2cBytes (Ev.bus rs d :: t) = i2cBytes t := rfl

lemma i2cBytes_cons_dw (p v : Nat) (t : List Ev) :
    i2cBytes (Ev.dw p v :: t) = i2cBytes t := rfl

lemma i2cBytes_cons_dus (n : Nat) (t : List Ev) :
    i2cBytes (Ev.dus n :: t) = i2cBytes t := rfl

lemma i2cBytes_cons_dms (n : Nat) (t : List Ev) :
    i2cBytes (Ev.dms n :: t) = i2cBytes t := rfl

lemma i2cBytes_cons_nib (v : Nat) (t : List Ev) :
    i2cBytes (Ev.nib v :: t) = i2cBytes t := rfl

lemma i2cBytes_append (t1 t2 : List Ev) :
    i2cBytes (t1 ++ t2) = i2cBytes t1 ++ i2cBytes t2 :=
  List.filterMap_append t1 t2 _

lemma i2cBytes_strobe (lcd : Lcd) : i2cBytes (strobe lcd) = [] := rfl

lemma i2cBytes_writeBitsLSB (my : Nat) (ps : List Nat) :
    i2cBytes (writeBitsLSB my ps) = [] := by
  induction ps generalizing my with
  | nil => rfl
  | cons p ps ih =>
    simp only [writeBitsLSB, i2cBytes_cons_dw]
    exact ih (my >>> 1)

lemma blOk_i2c_send (lcd : Lcd) (out : Nat)
    (hout : out.testBit lcd.backlight_bit = false)
    (hs : lcd.backlight_bit ≠ lcd.strbPin) : blOk lcd (i2c_send lcd out) := by
  intro b hb
  have hshl : ((1 : Nat) <<< lcd.strbPin).testBit lcd.backlight_bit = false :=
    testBit_shiftLeft_bit 1 lcd.strbPin lcd.backlight_bit (le_refl 1) hs
  simp only [i2cBytes, i2c_send, List.filterMap_cons, List.filterMap_nil] at hb
  simp only [List.mem_cons, List.not_mem_nil, or_false] at hb
  by_cases h : lcd.backlight_state ≠ 0
  · rcases hb with rfl | rfl <;>
      simp [Nat.testBit_lor, h, testBit_backlight_self lcd h]
  · have h0 : LCD_BACKLIGHT lcd = 0 := by simp [LCD_BACKLIGHT, h]
    rcases hb with rfl | rfl <;>
      simp [Nat.testBit_lor, h0, hout, hshl, h]

lemma blOk_append {lcd : Lcd} {t1 t2 : List Ev} (h1 : blOk lcd t1) (h2 : blOk lcd t2) :
    blOk lcd (t1 ++ t2) := by
  intro b hb
  rw [i2cBytes_append, List.mem_append] at hb
  rcases hb with hb | hb
  · exact h1 b hb
  · exact h2 b hb

lemma blOk_sendDataCmd (lcd : Lcd) (d rs : Nat) (hrs : rs ≤ 1) (hf : blFresh lcd) :
    blOk lcd (sendDataCmd lcd d rs) := by
  obtain ⟨h1, h2, h3⟩ := hf
  by_cases hi : lcd.i2c_fd ≠ 0
  · intro b hb
    have e : i2cBytes (sendDataCmd lcd d rs) =
        i2cBytes (i2c_send lcd ((marshal4Bits lcd ((d >>> 4) &&& 0xF) |||
          (rs <<< lcd.rsPin)) % 256)) ++
        i2cBytes (i2c_send lcd ((marshal4Bits lcd (d &&& 0xF) |||
          (rs <<< lcd.rsPin)) % 256)) := by
      simp [sendDataCmd, hi, i2cBytes_cons_bus, i2cBytes_append]
    rw [e, List.mem_append] at hb
    rcases hb with hb | hb
    · exact blOk_i2c_send lcd _ (testBit_output lcd _ rs hrs h3 h1) h2 b hb
    · exact blOk_i2c_send lcd _ (testBit_output lcd _ rs hrs h3 h1) h2 b hb
  · intro b hb
    have e : i2cBytes (sendDataCmd lcd d rs) = [] := by
      by_cases hb4 : lcd.bits = 4 <;>
        simp [sendDataCmd, hi, hb4, i2cBytes_cons_bus, i2cBytes_cons_dw,
          i2cBytes_append, i2cBytes_writeBitsLSB, i2cBytes_strobe]
    rw [e] at hb
    exact absurd hb (List.not_mem_nil b)

lemma blOk_putCommand (lcd : Lcd) (c : Nat) (hf : blFresh lcd) :
    blOk lcd (putCommand lcd c) := by
  apply blOk_append (blOk_sendDataCmd lcd c 0 (by omega) hf)
  intro b hb
  exact absurd hb (List.not_mem_nil b)

lemma blOk_put4Command (lcd : Lcd) (v : Nat) (hf : blFresh lcd) :
    blOk lcd (put4Command lcd v) := by
  obtain ⟨h1, h2, h3⟩ := hf
  by_cases hi : lcd.i2c_fd ≠ 0
  · intro b hb
    have e : i2cBytes (put4Command lcd v) = i2cBytes (i2c_send lcd (marshal4Bits lcd v)) := by
      simp [put4Command, hi, i2cBytes_cons_nib]
    rw [e] at hb
    exact blOk_i2c_send lcd _ (testBit_marshal4Bits lcd v lcd.backlight_bit h3) h2 b hb
  · intro b hb
    have e : i2cBytes (put4Command lcd v) = [] := by
      simp [put4Command, hi, i2cBytes_cons_nib, i2cBytes_cons_dw, i2cBytes_append,
        i2cBytes_writeBitsLSB, i2cBytes_strobe]
    rw [e] at hb
    exact absurd hb (List.not_mem_nil b)

lemma blOk_lcdPutchar (lcd : Lcd) (hf : blFresh lcd) (d : Nat)
    (p : Lcd × List Ev) (h : lcdPutchar lcd d = some p) : blOk lcd p.2 := by
  simp only [lcdPutchar] at h
  split at h
  · split at h
    · cases h
    · cases h
      split <;>
        exact blOk_append (blOk_sendDataCmd lcd d 1 (by omega) hf)
          (blOk_putCommand _ _ hf)
  · cases h
    exact blOk_sendDataCmd lcd d 1 (by omega) hf

/-- C7: on an I2C-backed handle whose backlight bit is wired to its own
expander bit position (distinct from RS, strobe and the four data bits),
every byte any operation writes to the expander carries the current
backlight state at the backlight bit: this holds for every data/command
byte (sendDataCmd), every init nibble (put4Command), every lcdPutchar
trace, and the lcdBacklight write itself.  After lcdBacklight(0), every
expander byte of a subsequent lcdPutchar has the bit cleared.  And a
transport write disturbs no other signal: for the same payload, the bytes
emitted with backlight on and off agree at every bit other than the
backlight bit. -/
theorem backlight_bit_invariant :
    ∀ (lcd : Lcd), lcd.i2c_fd ≠ 0 → blFresh lcd →
      (∀ d rs, rs ≤ 1 → blOk lcd (sendDataCmd lcd d rs)) ∧
      (∀ v, blOk lcd (put4Command lcd v)) ∧
      (∀ d p, lcdPutchar lcd d = some p → blOk lcd p.2) ∧
      blOk (lcdBacklight lcd 0).1 (lcdBacklight lcd 0).2 ∧
      (∀ d p, lcdPutchar (lcdBacklight lcd 0).1 d = some p →
        ∀ b ∈ i2cBytes p.2, b.testBit lcd.backlight_bit = false) ∧
      (∀ out j, j ≠ lcd.backlight_bit →
        (i2cBytes (i2c_send { lcd with backlight_state := 1 } out)).map
          (fun b => b.testBit j) =
        (i2cBytes (i2c_send { lcd with backlight_state := 0 } out)).map
          (fun b => b.testBit j)) := by
  intro lcd hi hf
  refine ⟨fun d rs hrs => blOk_sendDataCmd lcd d rs hrs hf,
          fun v => blOk_put4Command lcd v hf,
          fun d p h => blOk_lcdPutchar lcd hf d p h, ?_, ?_, ?_⟩
  · intro b hb
    simp only [lcdBacklight] at hb ⊢
    simp only [i2cBytes, LCD_BACKLIGHT, hi] at hb
    simp at hb
    obtain ⟨a, ⟨-, rfl⟩, ha⟩ := hb
    simp at ha
    subst ha
    simp
  · intro d p h b hb
    have h5 := blOk_lcdPutchar { lcd with backlight_state := 0 } hf d p h
    simpa using h5 b hb
  · intro out j hj
    simp [i2cBytes, i2c_send, LCD_BACKLIGHT, Nat.testBit_lor,
      testBit_shiftLeft_bit 1 lcd.backlight_bit j (le_refl 1) hj]

/-- C7 witness: the invariant exercised on the concrete I2C handle wired
as in the spec scenarios (data bits 4..7, RS bit 0, strobe bit 2,
backlight bit 3, backlight on), for one data byte and one init nibble. -/
theorem backlight_bit_invariant_witness :
    blOk c7lcd (sendDataCmd c7lcd 72 1) ∧ blOk c7lcd (put4Command c7lcd 3) := by
  have h := backlight_bit_invariant c7lcd (by decide)
    (show blFresh c7lcd from ⟨by decide, by decide, by decide⟩)
  exact ⟨h.1 72 1 (by decide), h.2.1 3⟩

lemma hdRun_nil (h : HD) : hdRun h [] = h := rfl

lemma hdRun_cons (h : HD) (e : Ev) (t : List Ev) :
    hdRun h (e :: t) = hdRun (hdStep h e) t := rfl

lemma hdRun_append (h : HD) (t1 t2 : List Ev) :
    hdRun h (t1 ++ t2) = hdRun (hdRun h t1) t2 :=
  List.foldl_append hdStep h t1 t2

lemma hdRun_strobe (h : HD) (lcd : Lcd) : hdRun h (strobe lcd) = h := rfl

lemma hdRun_i2c_send (h : HD) (lcd : Lcd) (out : Nat) :
    hdRun h (i2c_send lcd out) = h := rfl

lemma hdRun_writeBitsLSB (h : HD) (my : Nat) (ps : List Nat) :
    hdRun h (writeBitsLSB my ps) = h := by
  induction ps generalizing my with
  | nil => rfl
  | cons p ps ih => simp only [writeBitsLSB, hdRun_cons]; exact ih (my >>> 1)

lemma hdRun_sendDataCmd (h : HD) (lcd : Lcd) (d rs : Nat) :
    hdRun h (sendDataCmd lcd d rs) = hdStep h (Ev.bus rs d) := by
  by_cases hi : lcd.i2c_fd ≠ 0
  · rw [(by simp [sendDataCmd, hi] :
      sendDataCmd lcd d rs = Ev.bus rs d ::
        (i2c_send lcd ((marshal4Bits lcd ((d >>> 4) &&& 0xF) ||| (rs <<< lcd.rsPin)) % 256) ++
         i2c_send lcd ((marshal4Bits lcd (d &&& 0xF) ||| (rs <<< lcd.rsPin)) % 256)))]
    rw [hdRun_cons, hdRun_append, hdRun_i2c_send, hdRun_i2c_send]
  · by_cases hb4 : lcd.bits = 4
    · rw [(by simp [sendDataCmd, hi, hb4] :
        sendDataCmd lcd d rs = Ev.bus rs d :: (Ev.dw lcd.rsPin rs ::
          ((writeBitsLSB ((d >>> 4) &&& 0x0F) (pins4 lcd) ++ strobe lcd ++
            writeBitsLSB (d &&& 0x0F) (pins4 lcd)) ++ strobe lcd)))]
      rw [hdRun_cons, hdRun_cons, hdRun_append, hdRun_append, hdRun_append,
        hdRun_writeBitsLSB, hdRun_strobe, hdRun_writeBitsLSB, hdRun_strobe]
      rfl
    · rw [(by simp [sendDataCmd, hi, hb4] :
        sendDataCmd lcd d rs = Ev.bus rs d :: (Ev.dw lcd.rsPin rs ::
          (writeBitsLSB d (pins8 lcd) ++ strobe lcd)))]
      rw [hdRun_cons, hdRun_cons, hdRun_append, hdRun_writeBitsLSB, hdRun_strobe]
      rfl

lemma hdRun_putCommand (h : HD) (lcd : Lcd) (c : Nat) :
    hdRun h (putCommand lcd c) = hdStep h (Ev.bus 0 c) := by
  rw [putCommand, hdRun_append, hdRun_sendDataCmd]
  rfl

lemma hdStep_cmd_small (h : HD) (b : Nat) (h4 : 4 ≤ b) (h64 : b < 64) :
    hdStep h (Ev.bus 0 b) = h := by
  simp only [hdStep]
  rw [if_neg (by omega : ¬(0x80 ≤ b)), if_neg (by omega : ¬(0x40 ≤ b)),
    if_neg (by omega : ¬(b = 1 ∨ b = 2 ∨ b = 3))]

lemma hdStep_dd (h : HD) (b : Nat) (hb : 0x80 ≤ b) :
    hdStep h (Ev.bus 0 b) = ⟨false, b % 0x80⟩ := by
  simp only [hdStep]
  rw [if_pos hb]

lemma hdStep_data (h : HD) (d : Nat) :
    hdStep h (Ev.bus 1 d) = { h with addr := h.addr + 1 } := rfl

lemma hdStep_ctrlByte (h : HD) (c : Nat) (hc : c < 8) :
    hdStep h (Ev.bus 0 ((8 ||| c) % 256)) = h := by
  have hb := (by decide : ∀ c, c < 8 → 4 ≤ (8 ||| c) % 256 ∧ (8 ||| c) % 256 < 64) c hc
  exact hdStep_cmd_small h _ hb.1 hb.2

lemma synced_lcdPosition (hd : HD) (lcd : Lcd) (x y : Int) (p : Lcd × List Ev)
    (hs : synced hd lcd) (hcols : lcd.cols ≤ 20) (hy0 : 0 ≤ y) (hy3 : y ≤ 3)
    (h : lcdPosition lcd x y = some p) : synced (hdRun hd p.2) p.1 := by
  simp only [lcdPosition] at h
  split at h
  · cases h
    exact hs
  · rename_i hnx
    split at h
    · cases h
      exact hs
    · rename_i hny
      split at h
      · exact Option.noConfusion h
      · rename_i r hr
        cases h
        rw [hdRun_putCommand]
        have hx0 : 0 ≤ x := by omega
        have hx20 : x.toNat ≤ 20 := by omega
        interval_cases y
        · rw [show rowOffI 0 = some (0x00 : Nat) from rfl] at hr
          injection hr with hr0
          subst hr0
          have hb := (by decide : ∀ n, n ≤ 20 → 0x80 ≤ (n + (0x80 ||| 0x00)) % 256 ∧
            (n + (0x80 ||| 0x00)) % 256 % 0x80 = 0x00 + n) x.toNat hx20
          rw [hdStep_dd _ _ hb.1]
          exact ⟨rfl, hx0, by norm_num, by norm_num, hb.2⟩
        · rw [show rowOffI 1 = some (0x40 : Nat) from rfl] at hr
          injection hr with hr0
          subst hr0
          have hb := (by decide : ∀ n, n ≤ 20 → 0x80 ≤ (n + (0x80 ||| 0x40)) % 256 ∧
            (n + (0x80 ||| 0x40)) % 256 % 0x80 = 0x40 + n) x.toNat hx20
          rw [hdStep_dd _ _ hb.1]
          exact ⟨rfl, hx0, by norm_num, by norm_num, hb.2⟩
        · rw [show rowOffI 2 = some (0x14 : Nat) from rfl] at hr
          injection hr with hr0
          subst hr0
          have hb := (by decide : ∀ n, n ≤ 20 → 0x80 ≤ (n + (0x80 ||| 0x14)) % 256 ∧
            (n + (0x80 ||| 0x14)) % 256 % 0x80 = 0x14 + n) x.toNat hx20
          rw [hdStep_dd _ _ hb.1]
          exact ⟨rfl, hx0, by norm_num, by norm_num, hb.2⟩
        · rw [show rowOffI 3 = some (0x54 : Nat) from rfl] at hr
          injection hr with hr0
          subst hr0
          have hb := (by decide : ∀ n, n ≤ 20 → 0x80 ≤ (n + (0x80 ||| 0x54)) % 256 ∧
            (n + (0x80 ||| 0x54)) % 256 % 0x80 = 0x54 + n) x.toNat hx20
          rw [hdStep_dd _ _ hb.1]
          exact ⟨rfl, hx0, by norm_num, by norm_num, hb.2⟩

lemma synced_lcdPutchar (hd : HD) (lcd : Lcd) (d : Nat) (p : Lcd × List Ev)
    (hs : synced hd lcd) (h : lcdPutchar lcd d = some p) :
    synced (hdRun hd p.2) p.1 := by
  obtain ⟨hcg, hcx0, hcy0, hcy3, haddr⟩ := hs
  simp only [lcdPutchar] at h
  split at h
  · split at h
    · exact Option.noConfusion h
    · rename_i r hr
      cases h
      rw [hdRun_append, hdRun_sendDataCmd, hdStep_data, hdRun_putCommand]
      split
      · rename_i hw
        have hr' : rowOffI 0 = some r := by
          rw [if_pos hw] at hr
          exact hr
        rw [show rowOffI 0 = some (0x00 : Nat) from rfl] at hr'
        injection hr' with hr0
        subst hr0
        norm_num [hdStep, synced, rowOff, (show (128 ||| (0:Nat)) = 128 from rfl), (show (128 ||| (64:Nat)) = 192 from rfl), (show (128 ||| (20:Nat)) = 148 from rfl), (show (128 ||| (84:Nat)) = 212 from rfl), (show Int.toNat 1 = 1 from rfl), (show Int.toNat 2 = 2 from rfl), (show Int.toNat 3 = 3 from rfl)]
      · rename_i hw
        have hr' : rowOffI (lcd.cy + 1) = some r := by
          rw [if_neg hw] at hr
          exact hr
        have hcy' : lcd.cy = 0 ∨ lcd.cy = 1 ∨ lcd.cy = 2 ∨ lcd.cy = 3 := by omega
        rcases hcy' with hc | hc | hc | hc
        · rw [hc, (by norm_num : (0 : Int) + 1 = 1),
            show rowOffI 1 = some (0x40 : Nat) from rfl] at hr'
          injection hr' with hr0
          subst hr0
          rw [hc]
          norm_num [hdStep, synced, rowOff, (show (128 ||| (0:Nat)) = 128 from rfl), (show (128 ||| (64:Nat)) = 192 from rfl), (show (128 ||| (20:Nat)) = 148 from rfl), (show (128 ||| (84:Nat)) = 212 from rfl), (show Int.toNat 1 = 1 from rfl), (show Int.toNat 2 = 2 from rfl), (show Int.toNat 3 = 3 from rfl)]
        · rw [hc, (by norm_num : (1 : Int) + 1 = 2),
            show rowOffI 2 = some (0x14 : Nat) from rfl] at hr'
          injection hr' with hr0
          subst hr0
          rw [hc]
          norm_num [hdStep, synced, rowOff, (show (128 ||| (0:Nat)) = 128 from rfl), (show (128 ||| (64:Nat)) = 192 from rfl), (show (128 ||| (20:Nat)) = 148 from rfl), (show (128 ||| (84:Nat)) = 212 from rfl), (show Int.toNat 1 = 1 from rfl), (show Int.toNat 2 = 2 from rfl), (show Int.toNat 3 = 3 from rfl)]
        · rw [hc, (by norm_num : (2 : Int) + 1 = 3),
            show rowOffI 3 = some (0x54 : Nat) from rfl] at hr'
          injection hr' with hr0
          subst hr0
          rw [hc]
          norm_num [hdStep, synced, rowOff, (show (128 ||| (0:Nat)) = 128 from rfl), (show (128 ||| (64:Nat)) = 192 from rfl), (show (128 ||| (20:Nat)) = 148 from rfl), (show (128 ||| (84:Nat)) = 212 from rfl), (show Int.toNat 1 = 1 from rfl), (show Int.toNat 2 = 2 from rfl), (show Int.toNat 3 = 3 from rfl)]
        · rw [hc, (by norm_num : (3 : Int) + 1 = 4),
            show rowOffI 4 = none from rfl] at hr'
          exact Option.noConfusion hr'
  · cases h
    rw [hdRun_sendDataCmd, hdStep_data]
    exact ⟨hcg, by show (0:Int) ≤ lcd.cx + 1; omega, by show (0:Int) ≤ lcd.cy; omega,
      by show lcd.cy ≤ 3; omega,
      by show hd.addr + 1 = rowOff.getD lcd.cy.toNat 0 + (lcd.cx + 1).toNat; omega⟩

lemma synced_lcdPuts (hd : HD) (lcd : Lcd) (bs : List Nat) (p : Lcd × List Ev)
    (hs : synced hd lcd) (h : lcdPuts lcd bs = some p) :
    synced (hdRun hd p.2) p.1 := by
  induction bs generalizing hd lcd p with
  | nil =>
    cases h
    exact hs
  | cons b rest ih =>
    simp only [lcdPuts, Option.bind_eq_bind, Option.bind_eq_some] at h
    obtain ⟨⟨l1, t1⟩, h1, ⟨⟨l2, t2⟩, h2, h3⟩⟩ := h
    cases h3
    rw [hdRun_append]
    exact ih (hdRun hd t1) l1 ⟨l2, t2⟩ (synced_lcdPutchar hd lcd b ⟨l1, t1⟩ hs h1) h2

lemma synced_ctrlCmd (hd : HD) (lcd : Lcd) (c : Nat) (hc : c < 8)
    (hs : synced hd lcd) :
    synced (hdRun hd (putCommand lcd ((0x08 ||| c) % 256))) lcd := by
  rw [hdRun_putCommand, hdStep_ctrlByte hd c hc]
  exact hs

/-- C5 (corrected): with the controller address register modelled by hdRun,
every public operation except lcdCharDef and lcdSendCommand preserves the
correspondence between the stored cursor (cx, cy) and the controller's
DDRAM address counter: home, clear, display/cursor/blink control (for any
control-shadow value below 8), backlight, in-range position (cols at most
20, 0 <= y <= 3), putchar and puts all re-establish synced.  lcdCharDef
leaves the counter pointing into CGRAM (see the counterexample), so the
claim as stated over all public operations is false. -/
theorem cursor_ddram_sync (hd : HD) (lcd : Lcd) (ctrl : Nat)
    (hs : synced hd lcd) (hctrl : ctrl < 8) (hcols : lcd.cols ≤ 20) :
    synced (hdRun hd (lcdHome lcd).2) (lcdHome lcd).1 ∧
    synced (hdRun hd (lcdClear lcd).2) (lcdClear lcd).1 ∧
    (∀ s, synced (hdRun hd (lcdDisplay ctrl lcd s).2) lcd) ∧
    (∀ s, synced (hdRun hd (lcdCursor ctrl lcd s).2) lcd) ∧
    (∀ s, synced (hdRun hd (lcdCursorBlink ctrl lcd s).2) lcd) ∧
    (∀ s, synced (hdRun hd (lcdBacklight lcd s).2) (lcdBacklight lcd s).1) ∧
    (∀ x y p, 0 ≤ y → y ≤ 3 → lcdPosition lcd x y = some p →
      synced (hdRun hd p.2) p.1) ∧
    (∀ d p, lcdPutchar lcd d = some p → synced (hdRun hd p.2) p.1) ∧
    (∀ bs p, lcdPuts lcd bs = some p → synced (hdRun hd p.2) p.1) := by
  refine ⟨?_, ?_, ?_, ?_, ?_, ?_, ?_, ?_, ?_⟩
  · rw [show (lcdHome lcd).2 = putCommand lcd 0x02 ++ [Ev.dms 5] from rfl,
      hdRun_append, hdRun_putCommand]
    exact ⟨rfl, le_refl 0, le_refl 0, by show (0:Int) ≤ 3; norm_num, rfl⟩
  · rw [show (lcdClear lcd).2 =
        putCommand lcd 0x01 ++ putCommand lcd 0x02 ++ [Ev.dms 5] from rfl,
      hdRun_append, hdRun_append, hdRun_putCommand, hdRun_putCommand]
    exact ⟨rfl, le_refl 0, le_refl 0, by show (0:Int) ≤ 3; norm_num, rfl⟩
  · intro s
    by_cases hz : s ≠ 0
    · rw [show (lcdDisplay ctrl lcd s).2 =
          putCommand lcd ((0x08 ||| (ctrl ||| 0x04)) % 256) from by
        simp [lcdDisplay, hz]]
      exact synced_ctrlCmd hd lcd _ ((by decide : ∀ c < 8, (c ||| 4) < 8) ctrl hctrl) hs
    · rw [show (lcdDisplay ctrl lcd s).2 =
          putCommand lcd ((0x08 ||| clearMask ctrl 0x04) % 256) from by
        simp [lcdDisplay, hz]]
      exact synced_ctrlCmd hd lcd _
        ((by decide : ∀ c < 8, clearMask c 4 < 8) ctrl hctrl) hs
  · intro s
    by_cases hz : s ≠ 0
    · rw [show (lcdCursor ctrl lcd s).2 =
          putCommand lcd ((0x08 ||| (ctrl ||| 0x02)) % 256) from by
        simp [lcdCursor, hz]]
      exact synced_ctrlCmd hd lcd _ ((by decide : ∀ c < 8, (c ||| 2) < 8) ctrl hctrl) hs
    · rw [show (lcdCursor ctrl lcd s).2 =
          putCommand lcd ((0x08 ||| clearMask ctrl 0x02) % 256) from by
        simp [lcdCursor, hz]]
      exact synced_ctrlCmd hd lcd _
        ((by decide : ∀ c < 8, clearMask c 2 < 8) ctrl hctrl) hs
  · intro s
    by_cases hz : s ≠ 0
    · rw [show (lcdCursorBlink ctrl lcd s).2 =
          putCommand lcd ((0x08 ||| (ctrl ||| 0x01)) % 256) from by
        simp [lcdCursorBlink, hz]]
      exact synced_ctrlCmd hd lcd _ ((by decide : ∀ c < 8, (c ||| 1) < 8) ctrl hctrl) hs
    · rw [show (lcdCursorBlink ctrl lcd s).2 =
          putCommand lcd ((0x08 ||| clearMask ctrl 0x01) % 256) from by
        simp [lcdCursorBlink, hz]]
      exact synced_ctrlCmd hd lcd _
        ((by decide : ∀ c < 8, clearMask c 1 < 8) ctrl hctrl) hs
  · intro s
    show synced (hdRun hd (if lcd.i2c_fd ≠ 0 then
        [Ev.i2c lcd.i2c_fd (LCD_BACKLIGHT { lcd with backlight_state := s })]
      else [])) { lcd with backlight_state := s }
    split
    · exact hs
    · exact hs
  · intro x y p hy0 hy3 h
    exact synced_lcdPosition hd lcd x y p hs hcols hy0 hy3 h
  · intro d p h
    exact synced_lcdPutchar hd lcd d p hs h
  · intro bs p h
    exact synced_lcdPuts hd lcd bs p hs h

/-- C5 counterexample: from the synchronised origin state of the 8-bit
handle c5lcd, lcdCharDef with glyph index 1 and the all-zero pattern
leaves the control shadow and the handle unchanged, yet the modelled
controller address counter ends up pointing into CGRAM (cg = true), so
the claimed correspondence between (cx, cy) and the DDRAM address
register is broken after this public operation returns. -/
theorem lcdCharDef_desyncs :
    synced ⟨false, 0⟩ c5lcd ∧
    (lcdCharDef 0 c5lcd 1 (fun _ => 0)).1 = 0 ∧
    (lcdCharDef 0 c5lcd 1 (fun _ => 0)).2.1 = c5lcd ∧
    (hdRun ⟨false, 0⟩ (lcdCharDef 0 c5lcd 1 (fun _ => 0)).2.2).cg = true ∧
    ¬ synced (hdRun ⟨false, 0⟩ (lcdCharDef 0 c5lcd 1 (fun _ => 0)).2.2) c5lcd := by
  refine ⟨⟨rfl, by decide, by decide, by decide, rfl⟩, rfl, rfl, by decide, ?_⟩
  intro hsy
  have hcg := hsy.1
  rw [(by decide :
    (hdRun (⟨false, 0⟩ : HD) (lcdCharDef 0 c5lcd 1 (fun _ => 0)).2.2).cg = true)] at hcg
  exact Bool.noConfusion hcg

/-- Witness for cursor_ddram_sync at the concrete synchronised 8-bit
handle with control shadow 0: lcdHome re-establishes the cursor/address
correspondence. -/
theorem cursor_ddram_sync_witness :
    synced (hdRun ⟨false, 0⟩ (lcdHome c5lcd).2) (lcdHome c5lcd).1 :=
  (cursor_ddram_sync ⟨false, 0⟩ c5lcd 0
    ⟨rfl, by decide, by decide, by decide, rfl⟩ (by decide) (by decide)).1
